import Mathlib

/-!
Shallow embedding of the Solidity-for-TON command-line driver
(`solc/CommandLineInterface.cpp`) and proofs about its specification.

Conventions of the embedding:
* paths and file contents are strings; the file system is a record of the
  `boost::filesystem` queries the driver performs;
* every write to a user-visible stream is recorded as one event in an
  ordered trace, tagged by the emitting site and carrying its payload;
* the process-wide flag `g_hasOutput` and all driver members
  (`m_sourceCodes`, `m_remappings`, `m_allowedDirectories`) are fields of
  an explicit state threaded through the functions;
* C++ exceptions of the configuration-or-invocation step are values of an
  inductive `Fault` type; the engine invocation returns `Except Fault`
  and the driver's catch chain is a total Lean match, so a fault escaping
  the driver is not representable — mirroring the catch-all in the code.
-/

namespace TonSolc

/-- Import remapping parsed from an input token
(`CompilerStack::Remapping`): optional context, source piece, target. -/
structure Remapping where
  context : String
  pfx : String
  target : String
deriving DecidableEq

/-- A fault a file read may raise inside the read callback
(`readFileAsString` throwing a `util::Exception`, or anything else). -/
inductive ReadFault
  | exc (info : String)
  | other
deriving DecidableEq

/-- The file-system operations the driver performs (`boost::filesystem`
and `readFileAsString`).  Paths are plain strings; on POSIX,
`generic_string()` of a path constructed from a string is that string
again, so it is modelled as the identity and left implicit. -/
structure FileSystem where
  pathExists : String → Bool
  isRegularFile : String → Bool
  contents : String → String
  readFile : String → Except ReadFault String
  canonical : String → String
  weaklyCanonical : String → String
  removeFilename : String → String

/-- The parsed argument table (`m_args`): presence of each boolean option
and the single positional input token.  The option `input-file` is
declared as `po::value<string>` (a scalar), so it holds at most one
token.  Value-taking options (`--output-dir`, `--contract`, `--file`)
only configure the abstract engine and are not observable in this model. -/
structure Args where
  help : Bool := false
  version : Bool := false
  license : Bool := false
  astJson : Bool := false
  astCompactJson : Bool := false
  natspecUser : Bool := false
  natspecDev : Bool := false
  tvm : Bool := false
  tvmAbi : Bool := false
  tvmOptimize : Bool := false
  tvmPeephole : Bool := false
  tvmUnsavedStructs : Bool := false
  debug : Bool := false
  inputFile : Option String := none
deriving DecidableEq

/-- One write to a user-visible stream, tagged by the emitting site.
`fmtError` and `fmtException` are writes performed by the
`SourceReferenceFormatterHuman` constructed over `serr(false)`;
`fmtException` carries the label passed to `printExceptionInformation`
(source-reference formatting), `fmtError` a formatted engine diagnostic. -/
inductive Ev
  | outText (s : String)
  | errText (s : String)
  | fmtError (rendered : String)
  | fmtException (label : String) (info : String)
  | astTitle (s : String)
  | astBanner (path : String)
  | astBody (legacy : Bool) (path : String) (tree : String)
  | contractBanner (name : String)
  | natspecTitle (s : String)
  | natspecBody (s : String)
  | haltNotice
  | advisory
deriving DecidableEq

/-- Whether obtaining the stream for this write sets `g_hasOutput`:
`sout()` and `serr()` set it, the formatter stream `serr(false)` does
not. -/
def Ev.setsFlag : Ev → Bool
  | .fmtError _ => false
  | .fmtException _ _ => false
  | _ => true

/-- Events that are syntax-tree or documentation output on the content
stream. -/
def Ev.isAstOrDoc : Ev → Bool
  | .astTitle _ => true
  | .astBanner _ => true
  | .astBody _ _ _ => true
  | .natspecTitle _ => true
  | .natspecBody _ => true
  | _ => false

/-- Driver state: the process-wide output flag `g_hasOutput`, the members
of `CommandLineInterface`, a marker for engine construction
(`make_unique<CompilerStack>`), a marker that the configuration block of
`processInput` ran, a counter of read-callback invocations, and the
ordered trace of stream writes. -/
structure St where
  hasOutput : Bool := false
  sourceCodes : List (String × String) := []
  remappings : List Remapping := []
  allowedDirectories : List String := []
  engineConstructed : Bool := false
  configApplied : Bool := false
  readerCalls : Nat := 0
  events : List Ev := []
deriving DecidableEq

/-- Perform one write: obtain the stream (setting the flag if the
accessor does) and append the event to the trace. -/
def emit (st : St) (e : Ev) : St :=
  { st with hasOutput := st.hasOutput || e.setsFlag, events := st.events ++ [e] }

/-- `g_hasOutput = true; formatter-><print>` — the explicit flag set that
accompanies every write through the formatter stream. -/
def emitFormatted (st : St) (e : Ev) : St :=
  emit { st with hasOutput := true } e

/-- Append a batch of writes (derived form of a sequence of `emit`s). -/
def appendEvs (st : St) (l : List Ev) : St :=
  { st with hasOutput := st.hasOutput || l.any Ev.setsFlag, events := st.events ++ l }

/-- The events a computation starting from `st` appended to reach `st'`. -/
def emittedBy (st st' : St) : List Ev :=
  st'.events.drop st.events.length

/-- `m_sourceCodes[key] = value` — the source-unit mapping per the spec:
unique keys, re-insertion overwrites in place, fresh keys append.
Modelled from the spec: the member declaration lives in
`CommandLineInterface.h`, which is outside the excerpt; the spec (§3)
describes an insertion-ordered mapping with unique keys. -/
def insertSource (m : List (String × String)) (k v : String) : List (String × String) :=
  if m.any (fun p => p.1 == k) then
    m.map (fun p => if p.1 == k then (k, v) else p)
  else m ++ [(k, v)]

/-- Structured error types carried by `langutil::Error` (only
`DocstringParsingError` is tested by the driver). -/
inductive ErrTy
  | declarationError
  | docstringParsingError
  | parserError
  | typeError
  | syntaxError
  | warning
deriving DecidableEq

/-- `Error::typeName()` — the label used when rendering a structured
error that is not a docstring-parsing error.  The exact strings live in
`liblangutil`, outside the excerpt; only their role as labels matters. -/
def ErrTy.typeName : ErrTy → String
  | .declarationError => "DeclarationError"
  | .docstringParsingError => "DocstringParsingError"
  | .parserError => "ParserError"
  | .typeError => "TypeError"
  | .syntaxError => "SyntaxError"
  | .warning => "Warning"

/-- The faults the configuration-or-invocation step of `processInput` can
raise, one constructor per catch clause shape: `CompilerError`,
`InternalCompilerError`, `UnimplementedFeatureError`, `Error` (with its
type), other `util::Exception`, `std::exception` (whose `what()` may be
null), and a completely unknown fault (`catch (...)`). -/
inductive Fault
  | compilerError (info : String)
  | internalCompilerError (info : String)
  | unimplementedFeatureError (info : String)
  | structuredError (t : ErrTy) (info : String)
  | utilException (info : String)
  | stdException (what : Option String)
  | unknownFault
deriving DecidableEq

/-- The six spec categories of §4.5. -/
inductive FaultCat
  | compilerErrorCat
  | internalErrorCat
  | unimplementedCat
  | docstringCat
  | otherErrorCat
  | genericCat
deriving DecidableEq

/-- Which catch clause a fault reaches (the catch chain tries the clauses
in source order; a Lean `match` has the same first-match semantics). -/
def classifyFault : Fault → FaultCat
  | .compilerError _ => .compilerErrorCat
  | .internalCompilerError _ => .internalErrorCat
  | .unimplementedFeatureError _ => .unimplementedCat
  | .structuredError t _ =>
      if t = ErrTy.docstringParsingError then .docstringCat else .otherErrorCat
  | .utilException _ => .genericCat
  | .stdException _ => .genericCat
  | .unknownFault => .genericCat

/-- The single event each catch clause writes. -/
def renderFaultEv : Fault → Ev
  | .compilerError i => .fmtException "Compiler error" i
  | .internalCompilerError i =>
      .errText ("Internal compiler error during compilation:" ++ "\n" ++ i)
  | .unimplementedFeatureError i =>
      .errText ("Unimplemented feature:" ++ "\n" ++ i)
  | .structuredError t i =>
      if t = ErrTy.docstringParsingError then
        .errText ("Documentation parsing error: " ++ i)
      else .fmtException t.typeName i
  | .utilException i => .errText ("Exception during compilation: " ++ i)
  | .stdException (some w) => .errText ("Unknown exception during compilation: " ++ w)
  | .stdException none => .errText "Unknown exception during compilation."
  | .unknownFault => .errText "Unknown exception during compilation."

/-- The catch chain at the bottom of `processInput`: each clause renders
its category and returns `false`.  Being a total function, no fault can
escape it. -/
def handleFault (st : St) (f : Fault) : Bool × St :=
  match f with
  | .compilerError i => (false, emitFormatted st (.fmtException "Compiler error" i))
  | .internalCompilerError i =>
      (false, emit st (.errText ("Internal compiler error during compilation:" ++ "\n" ++ i)))
  | .unimplementedFeatureError i =>
      (false, emit st (.errText ("Unimplemented feature:" ++ "\n" ++ i)))
  | .structuredError t i =>
      if t = ErrTy.docstringParsingError then
        (false, emit st (.errText ("Documentation parsing error: " ++ i)))
      else (false, emitFormatted st (.fmtException t.typeName i))
  | .utilException i => (false, emit st (.errText ("Exception during compilation: " ++ i)))
  | .stdException (some w) =>
      (false, emit st (.errText ("Unknown exception during compilation: " ++ w)))
  | .stdException none =>
      (false, emit st (.errText "Unknown exception during compilation."))
  | .unknownFault => (false, emit st (.errText "Unknown exception during compilation."))

/-- The engine (`CompilerStack`) at its interface boundary: the read
requests it issues through the callback while `compile()` runs, the
outcome of `compile()` (a fault, or the pair `(successful,
didCompileSomething)`), the drained diagnostics (already formatted), and
the post-call accessors used by the output stage. -/
structure Engine where
  readRequests : List (String × String)
  outcome : Except Fault (Bool × Bool)
  errs : List String
  compilationSuccessful : Bool
  contractNames : List String
  natspecDevDoc : String → String
  natspecUserDoc : String → String
  astOf : String → String

/-- Modelled from the spec: `ReadCallback::kindString(Kind::ReadFile)` is
defined in `liblangutil`, outside the excerpt; the spec (§6) calls it
"the single recognized literal for read a file from the file system". -/
def readFileKindLiteral : String := "source"

/-- Result value of the read callback (`ReadCallback::Result`): a success
flag and the content or the failure reason. -/
structure ReadResult where
  success : Bool
  payload : String
deriving DecidableEq

/-- The `fileReader` lambda of `processInput`.  A total function: every
failure path, including faults from the read itself, is a `ReadResult`
value.  On success the content is recorded under the original
(non-canonical) path string. -/
def fileReader (fs : FileSystem) (st : St) (kind p : String) : ReadResult × St :=
  let st := { st with readerCalls := st.readerCalls + 1 }
  if kind != readFileKindLiteral then
    (⟨false, "Exception in read callback: " ++
        ("ReadFile callback used as callback kind " ++ kind)⟩, st)
  else
    let canonicalPath := fs.weaklyCanonical p
    if !fs.pathExists canonicalPath then (⟨false, "File not found."⟩, st)
    else if !fs.isRegularFile canonicalPath then (⟨false, "Not a valid file."⟩, st)
    else
      match fs.readFile canonicalPath with
      | .ok c => (⟨true, c⟩, { st with sourceCodes := insertSource st.sourceCodes p c })
      | .error (.exc i) => (⟨false, "Exception in read callback: " ++ i⟩, st)
      | .error .other => (⟨false, "Unknown exception in read callback."⟩, st)

/-- The engine calling back into `fileReader` once per request, in order,
while the driver is inside `compile()`. -/
def processReadRequests (fs : FileSystem) (reqs : List (String × String)) (st : St) : St :=
  reqs.foldl (fun s r => (fileReader fs s r.1 r.2).2) st

/-- Does the token contain an `=` (the code scans with
`find(path.begin(), path.end(), b'=')` — offset-free containment)? -/
def tokenHasEq (s : String) : Bool := s.toList.contains '='

/-- The substring after the first `=` (`string(eq + 1, path.end())`). -/
def afterEq (s : String) : String :=
  String.mk ((s.toList.dropWhile (fun c => c != '=')).drop 1)

/-- The substring before the first `=`. -/
def beforeEq (s : String) : String :=
  String.mk (s.toList.takeWhile (fun c => c != '='))

/-- Modelled from the spec: `CompilerStack::parseRemapping` is defined in
`libsolidity`, outside the excerpt.  Per §4.1 and the §8 scenario, the
part before the first `=` is an optional `context:` followed by the
source piece, the part after it is the target; `"ctxA:lib=./vendor"`
parses to context `ctxA`, piece `lib`, target `./vendor`; an empty
source piece is a parse failure. -/
def parseRemapping (s : String) : Option Remapping :=
  if tokenHasEq s then
    let front := beforeEq s
    let fc := front.toList
    if fc.contains ':' then
      let ctx := String.mk (fc.takeWhile (fun c => c != ':'))
      let piece := String.mk ((fc.dropWhile (fun c => c != ':')).drop 1)
      if piece.isEmpty then none else some ⟨ctx, piece, afterEq s⟩
    else if front.isEmpty then none
    else some ⟨"", front, afterEq s⟩
  else none

/-- How `readInputFilesAndConfigureRemappings` classifies one input
token: no `=` means a plain path reference; with `=`, remapping parsing
is attempted and its failure is a reportable condition, never a fallback
to path interpretation.  A pure function of the token (and the parse
function). -/
inductive TokenClass
  | pathRef
  | remap (r : Remapping)
  | invalidRemapping
deriving DecidableEq

/-- Extracted decision structure of the token handling (same tests, same
order as the code). -/
def classifyToken (parse : String → Option Remapping) (tok : String) : TokenClass :=
  if tokenHasEq tok then
    match parse tok with
    | some r => TokenClass.remap r
    | none => TokenClass.invalidRemapping
  else TokenClass.pathRef

/-- The distinct no-input diagnostic. -/
def noInputMsg : String :=
  "No input files given. If you wish to use the standard input please specify \"-\" explicitly."

/-- `CommandLineInterface::readInputFilesAndConfigureRemappings`,
parameterized by the remapping parse function (whose internals live in
`libsolidity`).  `boost::filesystem::path` streams with quotes, hence the
quoted path in the two file diagnostics. -/
def readInputFilesAndConfigureRemappings (parse : String → Option Remapping)
    (fs : FileSystem) (args : Args) (st : St) : Bool × St :=
  let step : Except St St :=
    match args.inputFile with
    | none => Except.ok st
    | some path0 =>
      if tokenHasEq path0 then
        match parse path0 with
        | some r =>
          let path := afterEq path0
          Except.ok { st with
            remappings := st.remappings ++ [r],
            allowedDirectories := st.allowedDirectories ++ [fs.removeFilename path] }
        | none =>
          Except.error (emit st (.errText ("Invalid remapping: \"" ++ path0 ++ "\".")))
      else
        if !fs.pathExists path0 then
          Except.error (emit st (.errText ("\"" ++ path0 ++ "\"" ++ " is not found.")))
        else if !fs.isRegularFile path0 then
          Except.error (emit st (.errText ("\"" ++ path0 ++ "\"" ++ " is not a valid file.")))
        else
          let stL := { st with
            sourceCodes := insertSource st.sourceCodes path0 (fs.contents path0) }
          let path := fs.canonical path0
          Except.ok { stL with
            allowedDirectories := stL.allowedDirectories ++ [fs.removeFilename path] }
  match step with
  | .error st => (false, st)
  | .ok st =>
    if st.sourceCodes.length = 0 then (false, emit st (.errText noInputMsg))
    else (true, st)

/-- Deprecation notice for the legacy optimization flag (quotes around
the flag name elided). -/
def deprecationMsg : String :=
  "Flag --tvm-optimize is deprecated. Code is optimized by default."

/-- `CommandLineInterface::processInput`.  The configuration steps
(`setRemappings` … `withDebugInfo`, `setInputFile`) act on the abstract
engine and are recorded by `configApplied`; the only observable
configuration output is the deprecation notice.  The invocation and
every fault of the configuration-or-invocation step are folded into
`engine.outcome`; the catch chain is `handleFault`. -/
def processInput (parse : String → Option Remapping) (fs : FileSystem)
    (engine : Engine) (args : Args) (st : St) : Bool × St :=
  match readInputFilesAndConfigureRemappings parse fs args st with
  | (false, st1) => (false, st1)
  | (true, st1) =>
    let st2 := { st1 with engineConstructed := true }
    let st3 := { st2 with configApplied := true }
    let st4 := if args.tvmOptimize then emit st3 (.errText deprecationMsg) else st3
    let st5 := processReadRequests fs engine.readRequests st4
    match engine.outcome with
    | .error f => handleFault st5 f
    | .ok (successful, didCompileSomething) =>
      let st6 := { st5 with hasOutput := st5.hasOutput || didCompileSomething }
      let st7 := engine.errs.foldl (fun s e => emitFormatted s (.fmtError e)) st6
      if successful then (true, st7) else (false, st7)

/-- `needsHumanTargetedStdout`: true when any of `ast-json`, `userdoc`,
`devdoc` was requested (note: `ast-compact-json` is not in the list). -/
def needsHumanTargetedStdout (args : Args) : Bool :=
  [args.astJson, args.natspecUser, args.natspecDev].any (fun b => b)

/-- `CommandLineInterface::handleNatspec` for one contract. -/
def handleNatspec (jsonPP : String → String) (engine : Engine) (args : Args)
    (dev : Bool) (contract : String) (st : St) : St :=
  let requested := if dev then args.natspecDev else args.natspecUser
  let title := if dev then "Developer Documentation" else "User Documentation"
  let doc := if dev then engine.natspecDevDoc contract else engine.natspecUserDoc contract
  if requested then emit (emit st (.natspecTitle title)) (.natspecBody (jsonPP doc))
  else st

/-- `CommandLineInterface::handleAst` for one of the two AST argument
strings (`compact = false` is the `ast-json` call).  When requested, it
prints the title then, for every unit of `m_sourceCodes` in iteration
order, the banner and the serialized tree. -/
def handleAst (engine : Engine) (args : Args) (compact : Bool) (st : St) : St :=
  let title := if compact then "JSON AST (compact format):" else "JSON AST:"
  let requested := if compact then args.astCompactJson else args.astJson
  if requested then
    let legacyFormat := !args.astCompactJson
    let st1 := emit st (.astTitle title)
    st1.sourceCodes.foldl
      (fun s src =>
        emit (emit s (.astBanner src.1)) (.astBody legacyFormat src.1 (engine.astOf src.1)))
      st1
  else st

/-- The per-contract body of the output loop: banner (when any
human-targeted kind is requested) then the two documentation kinds. -/
def contractStep (jsonPP : String → String) (engine : Engine) (args : Args)
    (st : St) (c : String) : St :=
  let st1 := if needsHumanTargetedStdout args then emit st (.contractBanner c) else st
  let st2 := handleNatspec jsonPP engine args true c st1
  handleNatspec jsonPP engine args false c st2

/-- `outputCompilationResults` up to (but excluding) the final
`g_hasOutput` check: both AST passes, then either the halt notice or the
contract loop. -/
def outputBeforeAdvisory (jsonPP : String → String) (engine : Engine) (args : Args)
    (st : St) : St :=
  let st1 := handleAst engine args false st
  let st2 := handleAst engine args true st1
  if !engine.compilationSuccessful then emit st2 .haltNotice
  else engine.contractNames.foldl (fun s c => contractStep jsonPP engine args s c) st2

/-- `CommandLineInterface::outputCompilationResults`. -/
def outputCompilationResults (jsonPP : String → String) (engine : Engine) (args : Args)
    (st : St) : St :=
  let st1 := handleAst engine args false st
  let st2 := handleAst engine args true st1
  if !engine.compilationSuccessful then emit st2 .haltNotice
  else
    let st3 := engine.contractNames.foldl (fun s c => contractStep jsonPP engine args s c) st2
    if !st3.hasOutput then emit st3 .advisory else st3

/-- `CommandLineInterface::actOnInput`: `m_error` is never assigned in
the excerpt, so `!m_error` is `true`. -/
def actOnInput (jsonPP : String → String) (engine : Engine) (args : Args)
    (st : St) : Bool × St :=
  (true, outputCompilationResults jsonPP engine args st)

/-- The boolean option names of the argument table. -/
def flagNames : List String :=
  ["help", "version", "license", "ast-json", "ast-compact-json", "userdoc", "devdoc",
   "tvm", "tvm-abi", "tvm-optimize", "tvm-peephole", "tvm-unsaved-structs", "debug"]

/-- Set the named boolean option. -/
def setFlag (a : Args) (name : String) : Args :=
  if name = "help" then { a with help := true }
  else if name = "version" then { a with version := true }
  else if name = "license" then { a with license := true }
  else if name = "ast-json" then { a with astJson := true }
  else if name = "ast-compact-json" then { a with astCompactJson := true }
  else if name = "userdoc" then { a with natspecUser := true }
  else if name = "devdoc" then { a with natspecDev := true }
  else if name = "tvm" then { a with tvm := true }
  else if name = "tvm-abi" then { a with tvmAbi := true }
  else if name = "tvm-optimize" then { a with tvmOptimize := true }
  else if name = "tvm-peephole" then { a with tvmPeephole := true }
  else if name = "tvm-unsaved-structs" then { a with tvmUnsavedStructs := true }
  else if name = "debug" then { a with debug := true }
  else a

/-- The `po::store(cmdLineParser.run(), m_args)` step for the declared
table: `--name` tokens set boolean options, every other token is
positional and bound to `input-file`; an unknown option is an error, and
because `input-file` is a scalar (`po::value<string>`, not a vector), a
second positional token is a multiple-occurrence error.  Value-taking
options are outside the model (no claim uses them). -/
def storeArgs (tokens : List String) : Except String Args :=
  let isOpt := fun (t : String) => t.toList.take 2 == ['-', '-']
  let opts := tokens.filter isOpt
  let positionals := tokens.filter (fun t => !isOpt t)
  match opts.find? (fun t => !flagNames.contains (t.drop 2)) with
  | some t => Except.error ("unrecognised option " ++ t)
  | none =>
    if positionals.length > 1 then
      Except.error "option --input-file cannot be specified more than once"
    else
      Except.ok { (opts.foldl (fun a t => setFlag a (t.drop 2)) {}) with
                  inputFile := positionals.head? }

/-- Start-up facts read once: whether stdin/stderr are interactive
terminals. -/
structure Env where
  isattyStdin : Bool
  isattyStderr : Bool
deriving DecidableEq

/-- Payload stand-ins for the texts not relevant to any claim. -/
def helpText : String := "solc, the Solidity commandline compiler. Usage: solc input-file"

/-- Version banner (`version()` prints it and calls `exit(0)`; the exit
is modelled as the run ending). -/
def versionText : String := "solc, the solidity compiler commandline interface"

/-- License text (`license()` prints it and calls `exit(0)`). -/
def licenseTextPayload : String := "license text"

/-- The peephole flag as it appears among raw argv tokens. -/
def peepholeFlagToken : String := "--tvm-peephole"

/-- The mutual-exclusion diagnostic for `tvm-abi` and `tvm`. -/
def mutualExclusionMsg : String := "Option tvm-abi and tvm are mutually exclusive."

/-- `CommandLineInterface::parseArguments` over the raw token list
(without the program name; `argc == 1` corresponds to `tokens = []`).
Its first action resets `g_hasOutput`.  The `tvm-abi`/`tvm` rejection
comes right after `po::store` and before everything else.  In the
peephole branch `run_peephole_pass` is external to the excerpt and its
output is not modelled. -/
def parseArguments (env : Env) (tokens : List String) (st0 : St) : Option Args × St :=
  let st := { st0 with hasOutput := false }
  match storeArgs tokens with
  | .error msg => (none, emit st (.errText msg))
  | .ok args =>
    if args.tvmAbi && args.tvm then (none, emit st (.errText mutualExclusionMsg))
    else if args.tvmPeephole then
      match tokens.find? (fun s => s != peepholeFlagToken) with
      | some _ => (none, st)
      | none => (none, emit st (.errText "Missing filename."))
    else if args.help || (env.isattyStdin && tokens.isEmpty) then
      (none, emit st (.outText helpText))
    else if args.version then (none, emit st (.outText versionText))
    else if args.license then (none, emit st (.outText licenseTextPayload))
    else (some args, st)

/-- Modelled from the spec: the `main()` chaining of the three driver
steps is outside the excerpt; per §7(a) a pre-flight failure is
"immediately fatal to the run, no engine interaction occurs", so the run
is `parseArguments` → `processInput` → `actOnInput`, stopping at the
first failure, starting from a fresh state. -/
def run (env : Env) (fs : FileSystem) (engine : Engine) (jsonPP : String → String)
    (parse : String → Option Remapping) (tokens : List String) : Bool × St :=
  match parseArguments env tokens {} with
  | (none, st) => (false, st)
  | (some args, st) =>
    match processInput parse fs engine args st with
    | (false, st) => (false, st)
    | (true, st) => actOnInput jsonPP engine args st

/-- The batch of writes `handleNatspec` performs for one contract. -/
def natspecEvents (jsonPP : String → String) (engine : Engine) (args : Args)
    (dev : Bool) (contract : String) : List Ev :=
  if (if dev then args.natspecDev else args.natspecUser) then
    [Ev.natspecTitle (if dev then "Developer Documentation" else "User Documentation"),
     Ev.natspecBody (jsonPP
       (if dev then engine.natspecDevDoc contract else engine.natspecUserDoc contract))]
  else []

/-- The batch of writes one `handleAst` call performs, over the units of
the mapping at the time of output. -/
def astEvents (engine : Engine) (args : Args) (compact : Bool)
    (srcs : List (String × String)) : List Ev :=
  if (if compact then args.astCompactJson else args.astJson) then
    Ev.astTitle (if compact then "JSON AST (compact format):" else "JSON AST:") ::
      srcs.flatMap (fun src =>
        [Ev.astBanner src.1, Ev.astBody (!args.astCompactJson) src.1 (engine.astOf src.1)])
  else []

/-- The batch of writes the contract loop performs for one contract. -/
def contractEvents (jsonPP : String → String) (engine : Engine) (args : Args)
    (c : String) : List Ev :=
  (if needsHumanTargetedStdout args then [Ev.contractBanner c] else []) ++
  natspecEvents jsonPP engine args true c ++ natspecEvents jsonPP engine args false c

/-- The batch of writes of `outputCompilationResults` before the final
`g_hasOutput` check. -/
def outEventsBA (jsonPP : String → String) (engine : Engine) (args : Args)
    (srcs : List (String × String)) : List Ev :=
  astEvents engine args false srcs ++ astEvents engine args true srcs ++
  (if !engine.compilationSuccessful then [Ev.haltNotice]
   else engine.contractNames.flatMap (fun c => contractEvents jsonPP engine args c))

/-- Concrete file system for witnesses: one regular file `a.sol`. -/
def fsW : FileSystem := {
  pathExists := fun p => p == "a.sol"
  isRegularFile := fun p => p == "a.sol"
  contents := fun _ => "contract code"
  readFile := fun _ => Except.ok "contract code"
  canonical := fun p => p
  weaklyCanonical := fun p => p
  removeFilename := fun _ => "DIR" }

/-- Concrete start-up environment for witnesses: nothing interactive. -/
def envW : Env := ⟨false, false⟩

/-- Concrete engine for witnesses, parameterized by the success flag of
the output stage, the contract list, and the `compile()` outcome. -/
def engW (cs : Bool) (names : List String) (oc : Except Fault (Bool × Bool)) : Engine := {
  readRequests := []
  outcome := oc
  errs := []
  compilationSuccessful := cs
  contractNames := names
  natspecDevDoc := fun _ => "devdoc body"
  natspecUserDoc := fun _ => "userdoc body"
  astOf := fun _ => "tree" }

/-- Identity pretty-printer for witnesses. -/
def idPP : String → String := fun s => s

/-- Is this event a per-unit syntax-tree banner? -/
def isAstBannerEv : Ev → Bool
  | .astBanner _ => true
  | _ => false

/-- The driver state right before `compile()` returns, given the state
`st1` after input loading: engine constructed, configuration applied,
optional deprecation notice emitted, and the read callbacks issued
during `compile()` processed. -/
def preCompileState (fs : FileSystem) (engine : Engine) (args : Args) (st1 : St) : St :=
  processReadRequests fs engine.readRequests
    (if args.tvmOptimize then
      emit { st1 with engineConstructed := true, configApplied := true }
        (Ev.errText deprecationMsg)
    else { st1 with engineConstructed := true, configApplied := true })

theorem emit_eq_appendEvs (st : St) (e : Ev) : emit st e = appendEvs st [e] := by
  simp [emit, appendEvs]

theorem appendEvs_nil (st : St) : appendEvs st [] = st := by
  simp [appendEvs]

theorem appendEvs_append (st : St) (l₁ l₂ : List Ev) :
    appendEvs (appendEvs st l₁) l₂ = appendEvs st (l₁ ++ l₂) := by
  simp [appendEvs, Bool.or_assoc]

theorem appendEvs_events (st : St) (l : List Ev) :
    (appendEvs st l).events = st.events ++ l := rfl

theorem appendEvs_hasOutput (st : St) (l : List Ev) :
    (appendEvs st l).hasOutput = (st.hasOutput || l.any Ev.setsFlag) := rfl

theorem appendEvs_sourceCodes (st : St) (l : List Ev) :
    (appendEvs st l).sourceCodes = st.sourceCodes := rfl

theorem appendEvs_allowedDirectories (st : St) (l : List Ev) :
    (appendEvs st l).allowedDirectories = st.allowedDirectories := rfl

theorem emittedBy_appendEvs (st : St) (l : List Ev) :
    emittedBy st (appendEvs st l) = l := by
  simp [emittedBy, appendEvs]

theorem emittedBy_emit_appendEvs (st : St) (l : List Ev) (e : Ev) :
    emittedBy st (emit (appendEvs st l) e) = l ++ [e] := by
  rw [emit_eq_appendEvs, appendEvs_append, emittedBy_appendEvs]

theorem foldl_appendEvs {α : Type} (f : St → α → St) (g : α → List Ev)
    (hf : ∀ st a, f st a = appendEvs st (g a)) :
    ∀ (l : List α) (st : St), l.foldl f st = appendEvs st (l.flatMap g)
  | [], st => by simp [appendEvs_nil]
  | a :: l, st => by
    simp only [List.foldl_cons, List.flatMap_cons]
    rw [hf, foldl_appendEvs f g hf l, appendEvs_append]

theorem handleNatspec_spec (jsonPP : String → String) (engine : Engine) (args : Args)
    (dev : Bool) (c : String) (st : St) :
    handleNatspec jsonPP engine args dev c st =
      appendEvs st (natspecEvents jsonPP engine args dev c) := by
  unfold handleNatspec natspecEvents
  cases hreq : (if dev then args.natspecDev else args.natspecUser) <;>
    simp [hreq, emit_eq_appendEvs, appendEvs_append, appendEvs_nil]

theorem foldl_ast (engine : Engine) (legacy : Bool) (l : List (String × String)) (st : St) :
    l.foldl
      (fun s src =>
        emit (emit s (.astBanner src.1)) (.astBody legacy src.1 (engine.astOf src.1))) st
      = appendEvs st
          (l.flatMap (fun src =>
            [Ev.astBanner src.1, Ev.astBody legacy src.1 (engine.astOf src.1)])) := by
  apply foldl_appendEvs
  intro st' src
  rw [emit_eq_appendEvs, emit_eq_appendEvs, appendEvs_append]
  rfl

theorem handleAst_spec (engine : Engine) (args : Args) (compact : Bool) (st : St) :
    handleAst engine args compact st =
      appendEvs st (astEvents engine args compact st.sourceCodes) := by
  simp only [handleAst, astEvents]
  cases hreq : (if compact then args.astCompactJson else args.astJson)
  · simp [hreq, appendEvs_nil]
  · simp only [hreq, if_true]
    rw [foldl_ast]
    rw [show (emit st (Ev.astTitle (if compact then "JSON AST (compact format):" else "JSON AST:"))).sourceCodes = st.sourceCodes from rfl]
    rw [emit_eq_appendEvs, appendEvs_append]
    rfl

theorem contractStep_spec (jsonPP : String → String) (engine : Engine) (args : Args)
    (st : St) (c : String) :
    contractStep jsonPP engine args st c =
      appendEvs st (contractEvents jsonPP engine args c) := by
  unfold contractStep contractEvents
  cases hb : needsHumanTargetedStdout args <;>
    simp [hb, handleNatspec_spec, emit_eq_appendEvs, appendEvs_append, appendEvs_nil]

theorem outputBeforeAdvisory_spec (jsonPP : String → String) (engine : Engine)
    (args : Args) (st : St) :
    outputBeforeAdvisory jsonPP engine args st =
      appendEvs st (outEventsBA jsonPP engine args st.sourceCodes) := by
  simp only [outputBeforeAdvisory, outEventsBA]
  rw [handleAst_spec, handleAst_spec, appendEvs_sourceCodes, appendEvs_append]
  cases hcs : engine.compilationSuccessful
  · simp only [Bool.not_false, if_true]
    rw [emit_eq_appendEvs, appendEvs_append]
  · simp only [Bool.not_true, if_false]
    rw [foldl_appendEvs _ (contractEvents jsonPP engine args)
      (fun st' c => contractStep_spec jsonPP engine args st' c), appendEvs_append]
    simp

theorem outputCompilationResults_eq (jsonPP : String → String) (engine : Engine)
    (args : Args) (st : St) :
    outputCompilationResults jsonPP engine args st =
      (if engine.compilationSuccessful
          && !(outputBeforeAdvisory jsonPP engine args st).hasOutput
       then emit (outputBeforeAdvisory jsonPP engine args st) Ev.advisory
       else outputBeforeAdvisory jsonPP engine args st) := by
  simp only [outputCompilationResults, outputBeforeAdvisory]
  cases hcs : engine.compilationSuccessful <;> simp

theorem mem_natspecEvents_shape (jsonPP : String → String) (engine : Engine)
    (args : Args) (dev : Bool) (c : String) (ev : Ev)
    (h : ev ∈ natspecEvents jsonPP engine args dev c) :
    (∃ s, ev = Ev.natspecTitle s) ∨ (∃ s, ev = Ev.natspecBody s) := by
  unfold natspecEvents at h
  by_cases hreq : ((if dev then args.natspecDev else args.natspecUser) = true)
  · rw [if_pos hreq] at h
    rcases List.mem_cons.mp h with h' | h'
    · exact Or.inl ⟨_, h'⟩
    · rcases List.mem_singleton.mp h' with h''
      exact Or.inr ⟨_, h''⟩
  · rw [if_neg hreq] at h
    cases h

theorem mem_astEvents_shape (engine : Engine) (args : Args) (compact : Bool)
    (srcs : List (String × String)) (ev : Ev) (h : ev ∈ astEvents engine args compact srcs) :
    (∃ s, ev = Ev.astTitle s) ∨ (∃ p, ev = Ev.astBanner p) ∨
      (∃ b p t, ev = Ev.astBody b p t) := by
  unfold astEvents at h
  by_cases hreq : ((if compact then args.astCompactJson else args.astJson) = true)
  · rw [if_pos hreq] at h
    rcases List.mem_cons.mp h with h' | h'
    · exact Or.inl ⟨_, h'⟩
    · rcases List.mem_flatMap.mp h' with ⟨src, _, hm⟩
      rcases List.mem_cons.mp hm with hm' | hm'
      · exact Or.inr (Or.inl ⟨_, hm'⟩)
      · rcases List.mem_singleton.mp hm' with hm''
        exact Or.inr (Or.inr ⟨_, _, _, hm''⟩)
  · rw [if_neg hreq] at h
    cases h

theorem mem_contractEvents_shape (jsonPP : String → String) (engine : Engine)
    (args : Args) (c : String) (ev : Ev) (h : ev ∈ contractEvents jsonPP engine args c) :
    (∃ n, ev = Ev.contractBanner n) ∨ (∃ s, ev = Ev.natspecTitle s) ∨
      (∃ s, ev = Ev.natspecBody s) := by
  unfold contractEvents at h
  rcases List.mem_append.mp h with h' | h'
  · rcases List.mem_append.mp h' with h'' | h''
    · by_cases hb : (needsHumanTargetedStdout args = true)
      · rw [if_pos hb] at h''
        exact Or.inl ⟨_, List.mem_singleton.mp h''⟩
      · rw [if_neg hb] at h''
        cases h''
    · rcases mem_natspecEvents_shape _ _ _ _ _ _ h'' with hs | hs
      · exact Or.inr (Or.inl hs)
      · exact Or.inr (Or.inr hs)
  · rcases mem_natspecEvents_shape _ _ _ _ _ _ h' with hs | hs
    · exact Or.inr (Or.inl hs)
    · exact Or.inr (Or.inr hs)

theorem mem_outEventsBA_shape (jsonPP : String → String) (engine : Engine)
    (args : Args) (srcs : List (String × String)) (ev : Ev)
    (h : ev ∈ outEventsBA jsonPP engine args srcs) :
    ev.setsFlag = true ∧ ev ≠ Ev.advisory := by
  unfold outEventsBA at h
  rcases List.mem_append.mp h with h' | h'
  · rcases List.mem_append.mp h' with h'' | h''
    · rcases mem_astEvents_shape _ _ _ _ _ h'' with ⟨s, rfl⟩ | ⟨p, rfl⟩ | ⟨b, p, t, rfl⟩ <;>
        exact ⟨rfl, by simp⟩
    · rcases mem_astEvents_shape _ _ _ _ _ h'' with ⟨s, rfl⟩ | ⟨p, rfl⟩ | ⟨b, p, t, rfl⟩ <;>
        exact ⟨rfl, by simp⟩
  · by_cases hcs : ((!engine.compilationSuccessful) = true)
    · rw [if_pos hcs] at h'
      rcases List.mem_singleton.mp h' with h''
      subst h''
      exact ⟨rfl, by simp⟩
    · rw [if_neg hcs] at h'
      rcases List.mem_flatMap.mp h' with ⟨c, _, hm⟩
      rcases mem_contractEvents_shape _ _ _ _ _ hm with ⟨n, rfl⟩ | ⟨s, rfl⟩ | ⟨s, rfl⟩ <;>
        exact ⟨rfl, by simp⟩

theorem contractBanner_not_mem_astEvents (engine : Engine) (args : Args) (compact : Bool)
    (srcs : List (String × String)) (c : String) :
    Ev.contractBanner c ∉ astEvents engine args compact srcs := by
  intro h
  rcases mem_astEvents_shape _ _ _ _ _ h with ⟨s, hs⟩ | ⟨p, hs⟩ | ⟨b, p, t, hs⟩ <;> cases hs

theorem contractBanner_not_mem_natspecEvents (jsonPP : String → String) (engine : Engine)
    (args : Args) (dev : Bool) (c c' : String) :
    Ev.contractBanner c ∉ natspecEvents jsonPP engine args dev c' := by
  intro h
  rcases mem_natspecEvents_shape _ _ _ _ _ _ h with ⟨s, hs⟩ | ⟨s, hs⟩ <;> cases hs

theorem mem_contractEvents_banner (jsonPP : String → String) (engine : Engine)
    (args : Args) (c c' : String) :
    Ev.contractBanner c ∈ contractEvents jsonPP engine args c' ↔
      (needsHumanTargetedStdout args = true ∧ c = c') := by
  unfold contractEvents
  cases hb : needsHumanTargetedStdout args <;>
    simp [hb, contractBanner_not_mem_natspecEvents]

theorem mem_outEventsBA_banner (jsonPP : String → String) (engine : Engine)
    (args : Args) (srcs : List (String × String)) (c : String) :
    Ev.contractBanner c ∈ outEventsBA jsonPP engine args srcs ↔
      (engine.compilationSuccessful = true ∧ needsHumanTargetedStdout args = true ∧
        c ∈ engine.contractNames) := by
  unfold outEventsBA
  cases hcs : engine.compilationSuccessful <;>
    simp [hcs, contractBanner_not_mem_astEvents, List.mem_flatMap,
      mem_contractEvents_banner] <;>
    exact and_comm

theorem filter_astBanner_flatMap (legacy : Bool) (engine : Engine) :
    ∀ (l : List (String × String)),
      ((l.flatMap (fun src =>
          [Ev.astBanner src.1, Ev.astBody legacy src.1 (engine.astOf src.1)])).filter
        isAstBannerEv) = l.map (fun src => Ev.astBanner src.1)
  | [] => rfl
  | a :: l => by
    simp only [List.flatMap_cons, List.filter_append, List.map_cons,
      filter_astBanner_flatMap legacy engine l]
    rfl

theorem filter_astBanner_astEvents (engine : Engine) (args : Args) (compact : Bool)
    (srcs : List (String × String)) :
    (astEvents engine args compact srcs).filter isAstBannerEv =
      (if (if compact then args.astCompactJson else args.astJson) then
        srcs.map (fun src => Ev.astBanner src.1)
      else []) := by
  unfold astEvents
  by_cases hreq : ((if compact then args.astCompactJson else args.astJson) = true)
  · rw [if_pos hreq, if_pos hreq, List.filter_cons]
    simp only [show isAstBannerEv (Ev.astTitle _) = false from rfl]
    rw [filter_astBanner_flatMap]
    simp
  · rw [if_neg hreq, if_neg hreq]
    rfl

theorem filter_eq_nil_of_shape {p : Ev → Bool} {l : List Ev}
    (h : ∀ e ∈ l, p e = false) : l.filter p = [] :=
  List.filter_eq_nil.mpr (fun e he => by simp [h e he])

theorem filter_astBanner_outEventsBA (jsonPP : String → String) (engine : Engine)
    (args : Args) (srcs : List (String × String)) :
    (outEventsBA jsonPP engine args srcs).filter isAstBannerEv =
      ((astEvents engine args false srcs).filter isAstBannerEv) ++
        ((astEvents engine args true srcs).filter isAstBannerEv) := by
  unfold outEventsBA
  rw [List.filter_append, List.filter_append]
  have htail :
      ((if !engine.compilationSuccessful then [Ev.haltNotice]
        else engine.contractNames.flatMap
          (fun c => contractEvents jsonPP engine args c)).filter isAstBannerEv) = [] := by
    by_cases hcs : ((!engine.compilationSuccessful) = true)
    · rw [if_pos hcs]; rfl
    · rw [if_neg hcs]
      apply filter_eq_nil_of_shape
      intro e he
      rcases List.mem_flatMap.mp he with ⟨c, _, hm⟩
      rcases mem_contractEvents_shape _ _ _ _ _ hm with ⟨n, rfl⟩ | ⟨s, rfl⟩ | ⟨s, rfl⟩ <;> rfl
  rw [htail, List.append_nil]

theorem fileReader_preserves (fs : FileSystem) (st : St) (k p : String) :
    (fileReader fs st k p).2.events = st.events ∧
    (fileReader fs st k p).2.hasOutput = st.hasOutput ∧
    (fileReader fs st k p).2.remappings = st.remappings ∧
    (fileReader fs st k p).2.allowedDirectories = st.allowedDirectories ∧
    (fileReader fs st k p).2.engineConstructed = st.engineConstructed := by
  simp only [fileReader]
  split
  · exact ⟨rfl, rfl, rfl, rfl, rfl⟩
  · split
    · exact ⟨rfl, rfl, rfl, rfl, rfl⟩
    · split
      · exact ⟨rfl, rfl, rfl, rfl, rfl⟩
      · split <;> exact ⟨rfl, rfl, rfl, rfl, rfl⟩

theorem processReadRequests_preserves (fs : FileSystem) :
    ∀ (reqs : List (String × String)) (st : St),
      (processReadRequests fs reqs st).events = st.events ∧
      (processReadRequests fs reqs st).hasOutput = st.hasOutput ∧
      (processReadRequests fs reqs st).remappings = st.remappings ∧
      (processReadRequests fs reqs st).allowedDirectories = st.allowedDirectories ∧
      (processReadRequests fs reqs st).engineConstructed = st.engineConstructed
  | [], st => ⟨rfl, rfl, rfl, rfl, rfl⟩
  | r :: reqs, st => by
    have h1 := fileReader_preserves fs st r.1 r.2
    have h2 := processReadRequests_preserves fs reqs (fileReader fs st r.1 r.2).2
    refine ⟨h2.1.trans h1.1, (h2.2.1).trans h1.2.1, (h2.2.2.1).trans h1.2.2.1,
      (h2.2.2.2.1).trans h1.2.2.2.1, (h2.2.2.2.2).trans h1.2.2.2.2⟩

theorem errsFold_spec :
    ∀ (l : List String) (st : St),
      ((l.foldl (fun s e => emitFormatted s (Ev.fmtError e)) st).events
          = st.events ++ l.map (fun e => Ev.fmtError e)) ∧
      ((l.foldl (fun s e => emitFormatted s (Ev.fmtError e)) st).hasOutput
          = (st.hasOutput || !l.isEmpty)) ∧
      ((l.foldl (fun s e => emitFormatted s (Ev.fmtError e)) st).remappings
          = st.remappings) ∧
      ((l.foldl (fun s e => emitFormatted s (Ev.fmtError e)) st).allowedDirectories
          = st.allowedDirectories) ∧
      ((l.foldl (fun s e => emitFormatted s (Ev.fmtError e)) st).engineConstructed
          = st.engineConstructed)
  | [], st => by simp
  | e :: l, st => by
    have ih := errsFold_spec l (emitFormatted st (Ev.fmtError e))
    simp only [List.foldl_cons, List.map_cons, List.isEmpty_cons] at ih ⊢
    refine ⟨?_, ?_, ih.2.2.1, ih.2.2.2.1, ih.2.2.2.2⟩
    · rw [ih.1]
      simp [emitFormatted, emit, Ev.setsFlag]
    · rw [ih.2.1]
      simp [emitFormatted, emit, Ev.setsFlag]

theorem handleFault_spec (st : St) (f : Fault) :
    (handleFault st f).1 = false ∧
    (handleFault st f).2.events = st.events ++ [renderFaultEv f] ∧
    (handleFault st f).2.hasOutput = true ∧
    (handleFault st f).2.remappings = st.remappings ∧
    (handleFault st f).2.allowedDirectories = st.allowedDirectories ∧
    (handleFault st f).2.engineConstructed = st.engineConstructed := by
  cases f with
  | structuredError t i =>
    by_cases h : t = ErrTy.docstringParsingError <;>
      simp [handleFault, renderFaultEv, h, emit, emitFormatted, Ev.setsFlag]
  | stdException w =>
    cases w <;> simp [handleFault, renderFaultEv, emit, emitFormatted, Ev.setsFlag]
  | compilerError i => simp [handleFault, renderFaultEv, emit, emitFormatted, Ev.setsFlag]
  | internalCompilerError i =>
    simp [handleFault, renderFaultEv, emit, emitFormatted, Ev.setsFlag]
  | unimplementedFeatureError i =>
    simp [handleFault, renderFaultEv, emit, emitFormatted, Ev.setsFlag]
  | utilException i => simp [handleFault, renderFaultEv, emit, emitFormatted, Ev.setsFlag]
  | unknownFault => simp [handleFault, renderFaultEv, emit, emitFormatted, Ev.setsFlag]

theorem append_ne_of_ne_nil {α : Type} {l δ : List α} (h : δ ≠ []) : l ++ δ ≠ l := by
  intro hc
  have hlen : l.length + δ.length = l.length := by
    simpa using congrArg List.length hc
  have : δ.length = 0 := by omega
  exact h (List.length_eq_zero.mp this)

theorem readInput_events (parse : String → Option Remapping) (fs : FileSystem)
    (args : Args) (st : St) :
    ∃ δ : List Ev,
      (readInputFilesAndConfigureRemappings parse fs args st).2.events = st.events ++ δ ∧
      (readInputFilesAndConfigureRemappings parse fs args st).2.hasOutput
        = (st.hasOutput || !δ.isEmpty) := by
  simp only [readInputFilesAndConfigureRemappings]
  cases hin : args.inputFile with
  | none =>
    by_cases hlen : st.sourceCodes.length = 0
    · exact ⟨[Ev.errText noInputMsg], by simp [hlen, emit, Ev.setsFlag]⟩
    · exact ⟨[], by simp [hlen]⟩
  | some path0 =>
    by_cases heq : tokenHasEq path0 = true
    · simp only [heq, if_true]
      cases hp : parse path0 with
      | some r =>
        by_cases hlen : st.sourceCodes.length = 0
        · exact ⟨[Ev.errText noInputMsg], by simp [hlen, emit, Ev.setsFlag]⟩
        · exact ⟨[], by simp [hlen]⟩
      | none =>
        exact ⟨[Ev.errText ("Invalid remapping: \"" ++ path0 ++ "\".")],
          by simp [emit, Ev.setsFlag]⟩
    · simp only [heq]
      by_cases hex : fs.pathExists path0 = true
      · by_cases hreg : fs.isRegularFile path0 = true
        · simp only [hex, hreg]
          by_cases hlen :
              (insertSource st.sourceCodes path0 (fs.contents path0)).length = 0
          · exact ⟨[Ev.errText noInputMsg], by simp [hlen, emit, Ev.setsFlag]⟩
          · exact ⟨[], by simp [hlen]⟩
        · simp only [hex]
          exact ⟨[Ev.errText ("\"" ++ path0 ++ "\"" ++ " is not a valid file.")],
            by simp [hreg, emit, Ev.setsFlag]⟩
      · exact ⟨[Ev.errText ("\"" ++ path0 ++ "\"" ++ " is not found.")],
          by simp [hex, emit, Ev.setsFlag]⟩

theorem processInput_true_branch (parse : String → Option Remapping) (fs : FileSystem)
    (engine : Engine) (args : Args) (st st1 : St)
    (hri : readInputFilesAndConfigureRemappings parse fs args st = (true, st1)) :
    processInput parse fs engine args st =
      (match engine.outcome with
       | .error f => handleFault (preCompileState fs engine args st1) f
       | .ok (successful, didCompileSomething) =>
         let st6 := { preCompileState fs engine args st1 with
           hasOutput := (preCompileState fs engine args st1).hasOutput
             || didCompileSomething }
         let st7 := engine.errs.foldl (fun s e => emitFormatted s (Ev.fmtError e)) st6
         if successful then (true, st7) else (false, st7)) := by
  simp only [processInput, hri, preCompileState]

theorem preCompileState_spec (fs : FileSystem) (engine : Engine) (args : Args) (st1 : St) :
    ∃ δ : List Ev,
      (preCompileState fs engine args st1).events = st1.events ++ δ ∧
      (preCompileState fs engine args st1).hasOutput = (st1.hasOutput || !δ.isEmpty) ∧
      (preCompileState fs engine args st1).allowedDirectories = st1.allowedDirectories ∧
      (preCompileState fs engine args st1).remappings = st1.remappings := by
  have h := processReadRequests_preserves fs engine.readRequests
    (if args.tvmOptimize then
      emit { st1 with engineConstructed := true, configApplied := true }
        (Ev.errText deprecationMsg)
    else { st1 with engineConstructed := true, configApplied := true })
  by_cases hopt : args.tvmOptimize = true
  · refine ⟨[Ev.errText deprecationMsg], ?_, ?_, ?_, ?_⟩
    · simp only [preCompileState]
      rw [h.1]
      simp [hopt, emit, Ev.setsFlag]
    · simp only [preCompileState]
      rw [h.2.1]
      simp [hopt, emit, Ev.setsFlag]
    · simp only [preCompileState]
      rw [h.2.2.2.1]
      simp [hopt, emit]
    · simp only [preCompileState]
      rw [h.2.2.1]
      simp [hopt, emit]
  · refine ⟨[], ?_, ?_, ?_, ?_⟩
    · simp only [preCompileState]
      rw [h.1]
      simp [hopt]
    · simp only [preCompileState]
      rw [h.2.1]
      simp [hopt]
    · simp only [preCompileState]
      rw [h.2.2.2.1]
      simp [hopt]
    · simp only [preCompileState]
      rw [h.2.2.1]
      simp [hopt]

/-- C3: every fault raised during the configuration-or-invocation step is
caught exactly once by the catch chain of `processInput` (a total match
over the fault type, so no fault can escape), is classified into exactly
one of the six categories, each with its distinct rendering
(`CompilerError` source-referenced with a fixed label,
`InternalCompilerError` and `UnimplementedFeatureError` raw dumps,
`Error` of docstring-parsing type a plain prefixed message, any other
`Error` source-referenced under its type name, and unstructured or
unknown faults generic messages), and every path makes `processInput`
return `false`. -/
theorem C3_fault_classification :
    (∀ (st : St) (f : Fault),
      (handleFault st f).1 = false ∧
      (handleFault st f).2.events = st.events ++ [renderFaultEv f]) ∧
    (∀ i, classifyFault (Fault.compilerError i) = FaultCat.compilerErrorCat ∧
      renderFaultEv (Fault.compilerError i) = Ev.fmtException "Compiler error" i) ∧
    (∀ i, classifyFault (Fault.internalCompilerError i) = FaultCat.internalErrorCat ∧
      renderFaultEv (Fault.internalCompilerError i)
        = Ev.errText ("Internal compiler error during compilation:" ++ "\n" ++ i)) ∧
    (∀ i, classifyFault (Fault.unimplementedFeatureError i) = FaultCat.unimplementedCat ∧
      renderFaultEv (Fault.unimplementedFeatureError i)
        = Ev.errText ("Unimplemented feature:" ++ "\n" ++ i)) ∧
    (∀ i, classifyFault (Fault.structuredError ErrTy.docstringParsingError i)
        = FaultCat.docstringCat ∧
      renderFaultEv (Fault.structuredError ErrTy.docstringParsingError i)
        = Ev.errText ("Documentation parsing error: " ++ i)) ∧
    (∀ t i, t ≠ ErrTy.docstringParsingError →
      classifyFault (Fault.structuredError t i) = FaultCat.otherErrorCat ∧
      renderFaultEv (Fault.structuredError t i) = Ev.fmtException t.typeName i) ∧
    (∀ i, classifyFault (Fault.utilException i) = FaultCat.genericCat) ∧
    (∀ w, classifyFault (Fault.stdException w) = FaultCat.genericCat) ∧
    (classifyFault Fault.unknownFault = FaultCat.genericCat) ∧
    (∀ (parse : String → Option Remapping) (fs : FileSystem) (engine : Engine)
        (args : Args) (st st1 : St) (f : Fault),
      readInputFilesAndConfigureRemappings parse fs args st = (true, st1) →
      engine.outcome = Except.error f →
      (processInput parse fs engine args st).1 = false ∧
      (processInput parse fs engine args st).2.events.getLast?
        = some (renderFaultEv f)) := by
  refine ⟨fun st f => ⟨(handleFault_spec st f).1, (handleFault_spec st f).2.1⟩,
    fun i => ⟨rfl, rfl⟩, fun i => ⟨rfl, rfl⟩, fun i => ⟨rfl, rfl⟩, fun i => ⟨rfl, rfl⟩,
    fun t i h => ⟨by simp [classifyFault, h], by simp [renderFaultEv, h]⟩,
    fun i => rfl, fun w => rfl, rfl, ?_⟩
  intro parse fs engine args st st1 f hri hout
  rw [processInput_true_branch parse fs engine args st st1 hri]
  simp only [hout]
  constructor
  · exact (handleFault_spec _ f).1
  · rw [(handleFault_spec _ f).2.1]
    exact List.getLast?_concat _

/-- Witness for C3 at a concrete run: a `CompilerError` fault raised by
the engine after a successful load of `a.sol`. -/
theorem C3_witness :
    (processInput parseRemapping fsW (engW true [] (Except.error (Fault.compilerError "boom")))
        { inputFile := some "a.sol" } {}).1 = false ∧
    (processInput parseRemapping fsW (engW true [] (Except.error (Fault.compilerError "boom")))
        { inputFile := some "a.sol" } {}).2.events.getLast?
      = some (renderFaultEv (Fault.compilerError "boom")) :=
  C3_fault_classification.2.2.2.2.2.2.2.2.2 parseRemapping fsW
    (engW true [] (Except.error (Fault.compilerError "boom")))
    { inputFile := some "a.sol" } {}
    { sourceCodes := [("a.sol", "contract code")], allowedDirectories := ["DIR"] }
    (Fault.compilerError "boom") (by decide) rfl

/-- C4: the read callback never raises (it is a total function into
`ReadResult`); a wrong kind yields an internal-severity failure value, a
missing weakly-canonicalized path yields `File not found.`, a
non-regular file yields `Not a valid file.`, a successful read records
the content under the original non-canonical path and returns it, and a
fault during the read is converted into a failure value. -/
theorem C4_source_reader :
    ∀ (fs : FileSystem) (st : St) (kind p : String),
      (kind ≠ readFileKindLiteral →
        fileReader fs st kind p =
          (⟨false, "Exception in read callback: " ++
              ("ReadFile callback used as callback kind " ++ kind)⟩,
           { st with readerCalls := st.readerCalls + 1 })) ∧
      (kind = readFileKindLiteral →
        fs.pathExists (fs.weaklyCanonical p) = false →
        fileReader fs st kind p =
          (⟨false, "File not found."⟩, { st with readerCalls := st.readerCalls + 1 })) ∧
      (kind = readFileKindLiteral →
        fs.pathExists (fs.weaklyCanonical p) = true →
        fs.isRegularFile (fs.weaklyCanonical p) = false →
        fileReader fs st kind p =
          (⟨false, "Not a valid file."⟩, { st with readerCalls := st.readerCalls + 1 })) ∧
      (∀ c, kind = readFileKindLiteral →
        fs.pathExists (fs.weaklyCanonical p) = true →
        fs.isRegularFile (fs.weaklyCanonical p) = true →
        fs.readFile (fs.weaklyCanonical p) = Except.ok c →
        fileReader fs st kind p =
          (⟨true, c⟩, { st with readerCalls := st.readerCalls + 1,
                                sourceCodes := insertSource st.sourceCodes p c })) ∧
      (∀ i, kind = readFileKindLiteral →
        fs.pathExists (fs.weaklyCanonical p) = true →
        fs.isRegularFile (fs.weaklyCanonical p) = true →
        fs.readFile (fs.weaklyCanonical p) = Except.error (ReadFault.exc i) →
        fileReader fs st kind p =
          (⟨false, "Exception in read callback: " ++ i⟩,
           { st with readerCalls := st.readerCalls + 1 })) ∧
      (kind = readFileKindLiteral →
        fs.pathExists (fs.weaklyCanonical p) = true →
        fs.isRegularFile (fs.weaklyCanonical p) = true →
        fs.readFile (fs.weaklyCanonical p) = Except.error ReadFault.other →
        fileReader fs st kind p =
          (⟨false, "Unknown exception in read callback."⟩,
           { st with readerCalls := st.readerCalls + 1 })) := by
  intro fs st kind p
  refine ⟨?_, ?_, ?_, ?_, ?_, ?_⟩
  · intro h
    simp [fileReader, h]
  · intro hk hex
    simp [fileReader, hk, hex]
  · intro hk hex hreg
    simp [fileReader, hk, hex, hreg]
  · intro c hk hex hreg hok
    simp [fileReader, hk, hex, hreg, hok]
  · intro i hk hex hreg herr
    simp [fileReader, hk, hex, hreg, herr]
  · intro hk hex hreg herr
    simp [fileReader, hk, hex, hreg, herr]

/-- Witness for C4 at the wrong-kind branch. -/
theorem C4_witness :
    ("bogus" ≠ readFileKindLiteral) ∧
    fileReader fsW {} "bogus" "a.sol" =
      (⟨false, "Exception in read callback: " ++
          ("ReadFile callback used as callback kind " ++ "bogus")⟩,
       { ({} : St) with readerCalls := 1 }) :=
  ⟨by decide, (C4_source_reader fsW {} "bogus" "a.sol").1 (by decide)⟩

/-- C5: a token without `=` is always classified as a plain path
reference; a token with `=` always goes through remapping parsing first,
and a parse failure reports `Invalid remapping` and aborts the token
(the state equation shows no fallback to path interpretation); the
classification is a pure function of the token. -/
theorem C5_token_classification :
    ∀ (parse : String → Option Remapping) (tok : String) (fs : FileSystem)
      (args : Args) (st : St),
      (tokenHasEq tok = false → classifyToken parse tok = TokenClass.pathRef) ∧
      (tokenHasEq tok = true → ∀ r, parse tok = some r →
        classifyToken parse tok = TokenClass.remap r) ∧
      (tokenHasEq tok = true → parse tok = none →
        classifyToken parse tok = TokenClass.invalidRemapping) ∧
      (args.inputFile = some tok → tokenHasEq tok = true → parse tok = none →
        readInputFilesAndConfigureRemappings parse fs args st =
          (false, emit st (Ev.errText ("Invalid remapping: \"" ++ tok ++ "\".")))) ∧
      (args.inputFile = some tok → tokenHasEq tok = true → ∀ r, parse tok = some r →
        (readInputFilesAndConfigureRemappings parse fs args st).2.remappings
            = st.remappings ++ [r] ∧
        (readInputFilesAndConfigureRemappings parse fs args st).2.sourceCodes
            = st.sourceCodes) ∧
      (args.inputFile = some tok → tokenHasEq tok = false →
        (readInputFilesAndConfigureRemappings parse fs args st).2.remappings
            = st.remappings) := by
  intro parse tok fs args st
  refine ⟨?_, ?_, ?_, ?_, ?_, ?_⟩
  · intro h
    simp [classifyToken, h]
  · intro h r hr
    simp [classifyToken, h, hr]
  · intro h hr
    simp [classifyToken, h, hr]
  · intro hin heq hp
    simp [readInputFilesAndConfigureRemappings, hin, heq, hp]
  · intro hin heq r hp
    simp only [readInputFilesAndConfigureRemappings, hin, heq, if_true, hp]
    by_cases hlen : st.sourceCodes.length = 0 <;> simp [hlen, emit]
  · intro hin heq
    simp only [readInputFilesAndConfigureRemappings, hin, heq]
    by_cases hex : fs.pathExists tok = true
    · by_cases hreg : fs.isRegularFile tok = true
      · simp only [hex, hreg]
        by_cases hlen :
            (insertSource st.sourceCodes tok (fs.contents tok)).length = 0 <;>
          simp [hlen, emit]
      · simp [hex, hreg, emit]
    · simp [hex, emit]

/-- Witness for C5 at the parse-failure branch (`"=vendor"` has an empty
source piece, so remapping parsing fails and no path fallback happens). -/
theorem C5_witness :
    tokenHasEq "=vendor" = true ∧ parseRemapping "=vendor" = none ∧
    readInputFilesAndConfigureRemappings parseRemapping fsW
        { inputFile := some "=vendor" } {} =
      (false, emit {} (Ev.errText ("Invalid remapping: \"" ++ "=vendor" ++ "\"."))) :=
  ⟨by decide, by decide,
    (C5_token_classification parseRemapping "=vendor" fsW
      { inputFile := some "=vendor" } {}).2.2.2.1 rfl (by decide) (by decide)⟩

/-- C6: when both `tvm-abi` and `tvm` are explicitly set, the run fails
right after argument storing with the mutual-exclusion message, before
any engine configuration step runs (`configApplied = false`), before the
engine is constructed or invoked (`engineConstructed = false`), and
before any read-callback call occurs (`readerCalls = 0`). -/
theorem C6_mutual_exclusion :
    ∀ (env : Env) (fs : FileSystem) (engine : Engine) (jsonPP : String → String)
      (parse : String → Option Remapping) (tokens : List String) (args : Args),
      storeArgs tokens = Except.ok args → args.tvmAbi = true → args.tvm = true →
      run env fs engine jsonPP parse tokens =
        (false, emit {} (Ev.errText mutualExclusionMsg)) ∧
      (run env fs engine jsonPP parse tokens).2.engineConstructed = false ∧
      (run env fs engine jsonPP parse tokens).2.configApplied = false ∧
      (run env fs engine jsonPP parse tokens).2.readerCalls = 0 := by
  intro env fs engine jsonPP parse tokens args hstore habi htvm
  have hrun : run env fs engine jsonPP parse tokens =
      (false, emit {} (Ev.errText mutualExclusionMsg)) := by
    simp [run, parseArguments, hstore, habi, htvm]
  exact ⟨hrun, by rw [hrun]; rfl, by rw [hrun]; rfl, by rw [hrun]; rfl⟩

/-- Witness for C6 at a concrete invocation with both selection flags. -/
theorem C6_witness :
    run envW fsW (engW true [] (Except.ok (true, true))) idPP parseRemapping
        ["--tvm-abi", "--tvm", "a.sol"] =
      (false, emit {} (Ev.errText mutualExclusionMsg)) :=
  (C6_mutual_exclusion envW fsW (engW true [] (Except.ok (true, true))) idPP parseRemapping
    ["--tvm-abi", "--tvm", "a.sol"]
    { tvmAbi := true, tvm := true, inputFile := some "a.sol" }
    rfl rfl rfl).1

/-- C10: a single positional token that parses as a remapping loads no
file content (the part after `=` is not read), so the source mapping
stays empty and `processInput` fails with the no-input diagnostic before
the engine is constructed and before any read-callback call. -/
theorem C10_remapping_only_no_input :
    ∀ (parse : String → Option Remapping) (fs : FileSystem) (engine : Engine)
      (args : Args) (st : St) (tok : String) (r : Remapping),
      st.sourceCodes = [] → args.inputFile = some tok →
      tokenHasEq tok = true → parse tok = some r →
      processInput parse fs engine args st =
        (false, emit { st with
            remappings := st.remappings ++ [r],
            allowedDirectories :=
              st.allowedDirectories ++ [fs.removeFilename (afterEq tok)] }
          (Ev.errText noInputMsg)) ∧
      (processInput parse fs engine args st).2.engineConstructed = st.engineConstructed ∧
      (processInput parse fs engine args st).2.readerCalls = st.readerCalls ∧
      (processInput parse fs engine args st).2.sourceCodes = [] := by
  intro parse fs engine args st tok r hsrc hin heq hp
  have hri : readInputFilesAndConfigureRemappings parse fs args st =
      (false, emit { st with
          remappings := st.remappings ++ [r],
          allowedDirectories :=
            st.allowedDirectories ++ [fs.removeFilename (afterEq tok)] }
        (Ev.errText noInputMsg)) := by
    simp [readInputFilesAndConfigureRemappings, hin, heq, hp, hsrc]
  have hpi : processInput parse fs engine args st =
      (false, emit { st with
          remappings := st.remappings ++ [r],
          allowedDirectories :=
            st.allowedDirectories ++ [fs.removeFilename (afterEq tok)] }
        (Ev.errText noInputMsg)) := by
    simp [processInput, hri]
  exact ⟨hpi, by rw [hpi]; rfl, by rw [hpi]; rfl, by rw [hpi]; simp [emit, hsrc]⟩

/-- Witness for C10 at the spec scenario token. -/
theorem C10_witness :
    processInput parseRemapping fsW (engW true [] (Except.ok (true, true)))
        { inputFile := some "ctxA:lib=./vendor" } {} =
      (false, emit { ({} : St) with
          remappings := [⟨"ctxA", "lib", "./vendor"⟩],
          allowedDirectories := ["DIR"] } (Ev.errText noInputMsg)) := by
  rw [(C10_remapping_only_no_input parseRemapping fsW
    (engW true [] (Except.ok (true, true))) { inputFile := some "ctxA:lib=./vendor" }
    {} "ctxA:lib=./vendor" ⟨"ctxA", "lib", "./vendor"⟩ rfl rfl (by decide) (by decide)).1]
  decide

/-- C9 counterexample: a remapping token plus a normal file token as two
positional arguments is rejected at argument parsing (`input-file` is a
scalar option), so the remapping is NOT parsed and the file is NOT
loaded, contrary to the claim. -/
theorem C9_counterexample :
    (run envW fsW (engW true [] (Except.ok (true, true))) idPP parseRemapping
        ["ctxA:lib=./vendor", "lib.sol"]).1 = false ∧
    (run envW fsW (engW true [] (Except.ok (true, true))) idPP parseRemapping
        ["ctxA:lib=./vendor", "lib.sol"]).2.remappings = [] ∧
    (run envW fsW (engW true [] (Except.ok (true, true))) idPP parseRemapping
        ["ctxA:lib=./vendor", "lib.sol"]).2.sourceCodes = [] ∧
    (run envW fsW (engW true [] (Except.ok (true, true))) idPP parseRemapping
        ["ctxA:lib=./vendor", "lib.sol"]).2.events
      = [Ev.errText "option --input-file cannot be specified more than once"] := by
  decide

/-- C9 amended: only one positional input token is accepted — the
two-token invocation fails during argument storing with a
multiple-occurrence error and nothing is parsed or loaded; with the
remapping token alone, it parses to context `ctxA`, piece `lib`, target
`./vendor`, no file is loaded from it, and the run fails with the
no-input diagnostic. -/
theorem C9_amended :
    ((run envW fsW (engW true [] (Except.ok (true, true))) idPP parseRemapping
        ["ctxA:lib=./vendor"]).1 = false ∧
     (run envW fsW (engW true [] (Except.ok (true, true))) idPP parseRemapping
        ["ctxA:lib=./vendor"]).2.remappings = [⟨"ctxA", "lib", "./vendor"⟩] ∧
     (run envW fsW (engW true [] (Except.ok (true, true))) idPP parseRemapping
        ["ctxA:lib=./vendor"]).2.sourceCodes = [] ∧
     (run envW fsW (engW true [] (Except.ok (true, true))) idPP parseRemapping
        ["ctxA:lib=./vendor"]).2.engineConstructed = false ∧
     (run envW fsW (engW true [] (Except.ok (true, true))) idPP parseRemapping
        ["ctxA:lib=./vendor"]).2.events.getLast? = some (Ev.errText noInputMsg)) ∧
    (run envW fsW (engW true [] (Except.ok (true, true))) idPP parseRemapping
        ["ctxA:lib=./vendor", "lib.sol"]).2.engineConstructed = false := by
  decide

/-- C8 counterexample: a successfully parsed remapping token appends the
target's parent directory to AllowedDirectorySet although no input file
was loaded (the source mapping stays empty), so not every entry is
derived from a loaded input file's parent directory. -/
theorem C8_counterexample :
    (readInputFilesAndConfigureRemappings parseRemapping fsW
        { inputFile := some "ctxA:lib=./vendor" } {}).2.allowedDirectories = ["DIR"] ∧
    (readInputFilesAndConfigureRemappings parseRemapping fsW
        { inputFile := some "ctxA:lib=./vendor" } {}).2.sourceCodes = [] := by
  decide

/-- C8 amended: AllowedDirectorySet is populated only during initial
input loading and is append-only, and each appended entry is the parent
directory of the input token's resolved path — the canonical path of a
loaded file for a file token, or the remapping target for a remapping
token (from which no file is loaded); after loading, no phase of the run
modifies it. -/
theorem C8_allowed_directories_amended :
    (∀ (parse : String → Option Remapping) (fs : FileSystem) (args : Args) (st : St),
      args.inputFile = none →
      (readInputFilesAndConfigureRemappings parse fs args st).2.allowedDirectories
        = st.allowedDirectories) ∧
    (∀ (parse : String → Option Remapping) (fs : FileSystem) (args : Args) (st : St)
        (tok : String) (r : Remapping),
      args.inputFile = some tok → tokenHasEq tok = true → parse tok = some r →
      (readInputFilesAndConfigureRemappings parse fs args st).2.allowedDirectories
        = st.allowedDirectories ++ [fs.removeFilename (afterEq tok)]) ∧
    (∀ (parse : String → Option Remapping) (fs : FileSystem) (args : Args) (st : St)
        (tok : String),
      args.inputFile = some tok → tokenHasEq tok = true → parse tok = none →
      (readInputFilesAndConfigureRemappings parse fs args st).2.allowedDirectories
        = st.allowedDirectories) ∧
    (∀ (parse : String → Option Remapping) (fs : FileSystem) (args : Args) (st : St)
        (tok : String),
      args.inputFile = some tok → tokenHasEq tok = false →
      fs.pathExists tok = true → fs.isRegularFile tok = true →
      (readInputFilesAndConfigureRemappings parse fs args st).2.allowedDirectories
        = st.allowedDirectories ++ [fs.removeFilename (fs.canonical tok)]) ∧
    (∀ (parse : String → Option Remapping) (fs : FileSystem) (args : Args) (st : St)
        (tok : String),
      args.inputFile = some tok → tokenHasEq tok = false →
      (fs.pathExists tok = false ∨ fs.isRegularFile tok = false) →
      (readInputFilesAndConfigureRemappings parse fs args st).2.allowedDirectories
        = st.allowedDirectories) ∧
    (∀ (fs : FileSystem) (st : St) (k p : String),
      (fileReader fs st k p).2.allowedDirectories = st.allowedDirectories) ∧
    (∀ (jsonPP : String → String) (engine : Engine) (args : Args) (st : St),
      (outputCompilationResults jsonPP engine args st).allowedDirectories
        = st.allowedDirectories) ∧
    (∀ (parse : String → Option Remapping) (fs : FileSystem) (engine : Engine)
        (args : Args) (st : St),
      (processInput parse fs engine args st).2.allowedDirectories
        = (readInputFilesAndConfigureRemappings parse fs args st).2.allowedDirectories) := by
  refine ⟨?_, ?_, ?_, ?_, ?_, ?_, ?_, ?_⟩
  · intro parse fs args st hin
    simp only [readInputFilesAndConfigureRemappings, hin]
    by_cases hlen : st.sourceCodes.length = 0 <;> simp [hlen, emit]
  · intro parse fs args st tok r hin heq hp
    simp only [readInputFilesAndConfigureRemappings, hin, heq, if_true, hp]
    by_cases hlen : st.sourceCodes.length = 0 <;> simp [hlen, emit]
  · intro parse fs args st tok hin heq hp
    simp [readInputFilesAndConfigureRemappings, hin, heq, hp, emit]
  · intro parse fs args st tok hin heq hex hreg
    simp only [readInputFilesAndConfigureRemappings, hin, heq, hex, hreg]
    by_cases hlen :
        (insertSource st.sourceCodes tok (fs.contents tok)).length = 0 <;>
      simp [hlen, emit]
  · intro parse fs args st tok hin heq hcase
    rcases hcase with hex | hreg
    · simp [readInputFilesAndConfigureRemappings, hin, heq, hex, emit]
    · simp only [readInputFilesAndConfigureRemappings, hin, heq]
      by_cases hex : fs.pathExists tok = true
      · simp [hex, hreg, emit]
      · simp [hex, emit]
  · intro fs st k p
    exact (fileReader_preserves fs st k p).2.2.2.1
  · intro jsonPP engine args st
    rw [outputCompilationResults_eq]
    by_cases hc : ((engine.compilationSuccessful
        && !(outputBeforeAdvisory jsonPP engine args st).hasOutput) = true)
    · rw [if_pos hc, outputBeforeAdvisory_spec]
      rfl
    · rw [if_neg hc, outputBeforeAdvisory_spec]
      rfl
  · intro parse fs engine args st
    rcases hri : readInputFilesAndConfigureRemappings parse fs args st with ⟨b, st1⟩
    cases b
    · simp [processInput, hri]
    · rw [processInput_true_branch parse fs engine args st st1 hri]
      rcases preCompileState_spec fs engine args st1 with ⟨δ, _, _, hdir, _⟩
      rcases hout : engine.outcome with f | p
      · simp only []
        rw [(handleFault_spec _ f).2.2.2.2.1, hdir]
      · rcases p with ⟨s, d⟩
        have hfold := (errsFold_spec engine.errs
          { preCompileState fs engine args st1 with
            hasOutput := (preCompileState fs engine args st1).hasOutput || d }).2.2.2.1
        cases s
        all_goals
          show (engine.errs.foldl (fun x e => emitFormatted x (Ev.fmtError e))
            { preCompileState fs engine args st1 with
              hasOutput := (preCompileState fs engine args st1).hasOutput
                || d }).allowedDirectories = st1.allowedDirectories
          rw [hfold]
          exact hdir

/-- Witness for C8 at the remapping branch (a different token from the
counterexample). -/
theorem C8_witness :
    (readInputFilesAndConfigureRemappings parseRemapping fsW
        { inputFile := some "lib=./vendor" } {}).2.allowedDirectories
      = [] ++ [fsW.removeFilename (afterEq "lib=./vendor")] :=
  C8_allowed_directories_amended.2.1 parseRemapping fsW { inputFile := some "lib=./vendor" }
    {} "lib=./vendor" ⟨"", "lib", "./vendor"⟩ rfl (by decide) (by decide)

/-- C2 counterexample: with exactly one human-targeted kind requested
(`devdoc` only), the per-contract banner IS printed, contrary to the
claim that it requires more than one kind. -/
theorem C2_counterexample :
    ((cond ({ natspecDev := true } : Args).astJson 1 0) +
     (cond ({ natspecDev := true } : Args).natspecUser 1 0) +
     (cond ({ natspecDev := true } : Args).natspecDev 1 0) = 1) ∧
    Ev.contractBanner "C" ∈
      (outputCompilationResults idPP (engW true ["C"] (Except.ok (true, true)))
        { natspecDev := true } {}).events := by
  decide

/-- C2 amended: during contract-level output the per-contract banner is
printed for a contract if and only if at least one of the three
human-targeted kinds checked by `needsHumanTargetedStdout` (`ast-json`,
`userdoc`, `devdoc` — note `ast-compact-json` is not among them) was
requested and the output stage reached the contract loop. -/
theorem C2_banner_amended :
    ∀ (jsonPP : String → String) (engine : Engine) (args : Args) (st : St) (c : String),
      needsHumanTargetedStdout args
        = (args.astJson || args.natspecUser || args.natspecDev) ∧
      (Ev.contractBanner c ∈ emittedBy st (outputCompilationResults jsonPP engine args st) ↔
        (engine.compilationSuccessful = true ∧ needsHumanTargetedStdout args = true ∧
          c ∈ engine.contractNames)) := by
  intro jsonPP engine args st c
  constructor
  · simp [needsHumanTargetedStdout, Bool.or_assoc]
  · rw [outputCompilationResults_eq]
    by_cases hc : ((engine.compilationSuccessful
        && !(outputBeforeAdvisory jsonPP engine args st).hasOutput) = true)
    · rw [if_pos hc, outputBeforeAdvisory_spec, emittedBy_emit_appendEvs]
      rw [List.mem_append]
      simp only [List.mem_singleton]
      rw [mem_outEventsBA_banner]
      simp
    · rw [if_neg hc, outputBeforeAdvisory_spec, emittedBy_appendEvs]
      exact mem_outEventsBA_banner jsonPP engine args st.sourceCodes c

/-- C7 counterexample: with both syntax-tree formats requested, the
per-unit banner of `a.sol` is printed twice in one run, not exactly
once. -/
theorem C7_counterexample :
    ¬ (((outputCompilationResults idPP (engW true [] (Except.ok (true, true)))
          { astJson := true, astCompactJson := true }
          { sourceCodes := [("a.sol", "x")] }).events.count (Ev.astBanner "a.sol")) = 1) ∧
    ((outputCompilationResults idPP (engW true [] (Except.ok (true, true)))
        { astJson := true, astCompactJson := true }
        { sourceCodes := [("a.sol", "x")] }).events.count (Ev.astBanner "a.sol")) = 2 := by
  decide

/-- C7 amended: per requested syntax-tree format, a title line and then,
for every unit of the source mapping in its iteration order, a banner
and the serialized tree are printed exactly once — even when the run
later fails; with both formats requested the banners appear once per
format (twice in total); and when compilation was not fully successful
the emitted output is exactly the syntax-tree output followed by the
halt notice, with no contract-level output. -/
theorem C7_ast_output_amended :
    ∀ (jsonPP : String → String) (engine : Engine) (args : Args) (st : St),
      ((args.astJson = true ∧ args.astCompactJson = false) →
        (emittedBy st (outputCompilationResults jsonPP engine args st)).filter isAstBannerEv
          = st.sourceCodes.map (fun src => Ev.astBanner src.1)) ∧
      ((args.astJson = false ∧ args.astCompactJson = true) →
        (emittedBy st (outputCompilationResults jsonPP engine args st)).filter isAstBannerEv
          = st.sourceCodes.map (fun src => Ev.astBanner src.1)) ∧
      ((args.astJson = true ∧ args.astCompactJson = true) →
        (emittedBy st (outputCompilationResults jsonPP engine args st)).filter isAstBannerEv
          = st.sourceCodes.map (fun src => Ev.astBanner src.1)
              ++ st.sourceCodes.map (fun src => Ev.astBanner src.1)) ∧
      (args.astJson = true →
        Ev.astTitle "JSON AST:"
          ∈ emittedBy st (outputCompilationResults jsonPP engine args st)) ∧
      (engine.compilationSuccessful = false →
        emittedBy st (outputCompilationResults jsonPP engine args st) =
          astEvents engine args false st.sourceCodes
            ++ astEvents engine args true st.sourceCodes ++ [Ev.haltNotice]) := by
  intro jsonPP engine args st
  have hfilter :
      (emittedBy st (outputCompilationResults jsonPP engine args st)).filter isAstBannerEv
        = ((astEvents engine args false st.sourceCodes).filter isAstBannerEv)
            ++ ((astEvents engine args true st.sourceCodes).filter isAstBannerEv) := by
    rw [outputCompilationResults_eq]
    by_cases hc : ((engine.compilationSuccessful
        && !(outputBeforeAdvisory jsonPP engine args st).hasOutput) = true)
    · rw [if_pos hc, outputBeforeAdvisory_spec, emittedBy_emit_appendEvs,
        List.filter_append]
      rw [filter_astBanner_outEventsBA]
      simp [isAstBannerEv]
    · rw [if_neg hc, outputBeforeAdvisory_spec, emittedBy_appendEvs]
      exact filter_astBanner_outEventsBA jsonPP engine args st.sourceCodes
  refine ⟨?_, ?_, ?_, ?_, ?_⟩
  · rintro ⟨h1, h2⟩
    rw [hfilter, filter_astBanner_astEvents, filter_astBanner_astEvents]
    simp [h1, h2]
  · rintro ⟨h1, h2⟩
    rw [hfilter, filter_astBanner_astEvents, filter_astBanner_astEvents]
    simp [h1, h2]
  · rintro ⟨h1, h2⟩
    rw [hfilter, filter_astBanner_astEvents, filter_astBanner_astEvents]
    simp [h1, h2]
  · intro h1
    have hmem : Ev.astTitle "JSON AST:" ∈ outEventsBA jsonPP engine args st.sourceCodes := by
      unfold outEventsBA
      apply List.mem_append_left
      apply List.mem_append_left
      unfold astEvents
      simp [h1]
    rw [outputCompilationResults_eq]
    by_cases hc : ((engine.compilationSuccessful
        && !(outputBeforeAdvisory jsonPP engine args st).hasOutput) = true)
    · rw [if_pos hc, outputBeforeAdvisory_spec, emittedBy_emit_appendEvs]
      exact List.mem_append_left _ hmem
    · rw [if_neg hc, outputBeforeAdvisory_spec, emittedBy_appendEvs]
      exact hmem
  · intro hcs
    rw [outputCompilationResults_eq]
    have hcond : (engine.compilationSuccessful
        && !(outputBeforeAdvisory jsonPP engine args st).hasOutput) = false := by
      simp [hcs]
    rw [hcond]
    simp only [Bool.false_eq_true, if_false]
    rw [outputBeforeAdvisory_spec, emittedBy_appendEvs]
    unfold outEventsBA
    rw [hcs]
    simp

/-- C1 counterexample: a run that loads one file with no output options,
where the engine reports `didCompileSomething = true` — the flag ends
`true` while the event trace is empty (no write to a user-visible
stream ever happened), so the flag is not flipped only by successful
writes; the advisory is consequently suppressed although nothing was
written. -/
theorem C1_counterexample :
    (run envW fsW (engW true [] (Except.ok (true, true))) idPP parseRemapping
        ["a.sol"]).2.hasOutput = true ∧
    (run envW fsW (engW true [] (Except.ok (true, true))) idPP parseRemapping
        ["a.sol"]).2.events = [] ∧
    (run envW fsW (engW true [] (Except.ok (true, true))) idPP parseRemapping
        ["a.sol"]).1 = true := by
  decide

/-- C1 amended: the flag is reset at the start of `parseArguments`
(its result is insensitive to the incoming flag), every flag-setting
stream write turns it true, the advisory is emitted iff the run reached
the final check with the flag still false, the advisory never appears
when a syntax-tree or documentation write happened, and during
`processInput` the flag can only become true together with an emitted
event or because the engine reported it produced an artifact
(`g_hasOutput |= didCompileSomething`). -/
theorem C1_output_tracker_amended :
    (∀ (env : Env) (tokens : List String) (st : St) (b : Bool),
      parseArguments env tokens { st with hasOutput := b }
        = parseArguments env tokens { st with hasOutput := false }) ∧
    (∀ (st : St) (e : Ev), e.setsFlag = true → (emit st e).hasOutput = true) ∧
    (∀ (jsonPP : String → String) (engine : Engine) (args : Args) (st : St),
      Ev.advisory ∉ st.events →
      (Ev.advisory ∈ (outputCompilationResults jsonPP engine args st).events ↔
        (engine.compilationSuccessful = true ∧
          (outputBeforeAdvisory jsonPP engine args st).hasOutput = false))) ∧
    (∀ (jsonPP : String → String) (engine : Engine) (args : Args) (st : St) (e : Ev),
      e.isAstOrDoc = true →
      e ∈ emittedBy st (outputCompilationResults jsonPP engine args st) →
      Ev.advisory ∉ emittedBy st (outputCompilationResults jsonPP engine args st)) ∧
    (∀ (parse : String → Option Remapping) (fs : FileSystem) (engine : Engine)
        (args : Args) (st : St),
      (processInput parse fs engine args st).2.hasOutput = true →
      st.hasOutput = true ∨
      (processInput parse fs engine args st).2.events ≠ st.events ∨
      (∃ b, engine.outcome = Except.ok (b, true))) := by
  refine ⟨?_, ?_, ?_, ?_, ?_⟩
  · intro env tokens st b
    cases st
    rfl
  · intro st e h
    simp [emit, h]
  · intro jsonPP engine args st hnotin
    rw [outputCompilationResults_eq]
    by_cases hc : ((engine.compilationSuccessful
        && !(outputBeforeAdvisory jsonPP engine args st).hasOutput) = true)
    · rw [if_pos hc]
      rcases Bool.and_eq_true_iff.mp hc with ⟨h1, h2⟩
      have h2' : (outputBeforeAdvisory jsonPP engine args st).hasOutput = false := by
        simpa using h2
      constructor
      · intro _
        exact ⟨h1, h2'⟩
      · intro _
        exact List.mem_append_right _ (List.mem_singleton.mpr rfl)
    · rw [if_neg hc]
      have hnot : ¬ (engine.compilationSuccessful = true ∧
          (outputBeforeAdvisory jsonPP engine args st).hasOutput = false) := by
        rintro ⟨h1, h2⟩
        exact hc (by simp [h1, h2])
      constructor
      · intro hmem
        exfalso
        rw [outputBeforeAdvisory_spec, appendEvs_events] at hmem
        rcases List.mem_append.mp hmem with h | h
        · exact hnotin h
        · exact (mem_outEventsBA_shape jsonPP engine args st.sourceCodes Ev.advisory h).2 rfl
      · intro hrhs
        exact absurd hrhs hnot
  · intro jsonPP engine args st e hAst hMem
    rw [outputCompilationResults_eq] at hMem ⊢
    by_cases hc : ((engine.compilationSuccessful
        && !(outputBeforeAdvisory jsonPP engine args st).hasOutput) = true)
    · exfalso
      rw [if_pos hc] at hMem
      rw [outputBeforeAdvisory_spec, emittedBy_emit_appendEvs] at hMem
      rcases Bool.and_eq_true_iff.mp hc with ⟨_, h2⟩
      have h2' : (outputBeforeAdvisory jsonPP engine args st).hasOutput = false := by
        simpa using h2
      rw [outputBeforeAdvisory_spec, appendEvs_hasOutput] at h2'
      have hδ : (outEventsBA jsonPP engine args st.sourceCodes).any Ev.setsFlag = false :=
        (Bool.or_eq_false_iff.mp h2').2
      rcases List.mem_append.mp hMem with h | h
      · have hany : (outEventsBA jsonPP engine args st.sourceCodes).any Ev.setsFlag = true :=
          List.any_eq_true.mpr
            ⟨e, h, (mem_outEventsBA_shape jsonPP engine args st.sourceCodes e h).1⟩
        rw [hδ] at hany
        cases hany
      · rcases List.mem_singleton.mp h with rfl
        simp [Ev.isAstOrDoc] at hAst
    · rw [if_neg hc]
      rw [outputBeforeAdvisory_spec, emittedBy_appendEvs]
      intro hadv
      exact (mem_outEventsBA_shape jsonPP engine args st.sourceCodes Ev.advisory hadv).2 rfl
  · intro parse fs engine args st h
    rcases hri : readInputFilesAndConfigureRemappings parse fs args st with ⟨b, st1⟩
    have hre := readInput_events parse fs args st
    rw [hri] at hre
    rcases hre with ⟨δ1, hev1, hho1⟩
    cases b
    · have hpi : processInput parse fs engine args st = (false, st1) := by
        simp [processInput, hri]
      rw [hpi] at h ⊢
      replace h : st1.hasOutput = true := h
      by_cases hδ : δ1.isEmpty = true
      · left
        rw [hho1, hδ] at h
        simpa using h
      · right; left
        show st1.events ≠ st.events
        rw [hev1]
        exact append_ne_of_ne_nil (by simpa using hδ)
    · rw [processInput_true_branch parse fs engine args st st1 hri] at h ⊢
      rcases preCompileState_spec fs engine args st1 with ⟨δ2, hev2, hho2, _, _⟩
      rcases hout : engine.outcome with f | p
      · right; left
        show (handleFault (preCompileState fs engine args st1) f).2.events ≠ st.events
        rw [(handleFault_spec (preCompileState fs engine args st1) f).2.1, hev2, hev1]
        simp only [List.append_assoc]
        exact append_ne_of_ne_nil (by simp)
      · rcases p with ⟨s, d⟩
        rw [hout] at h
        have hfold := errsFold_spec engine.errs
          { preCompileState fs engine args st1 with
            hasOutput := (preCompileState fs engine args st1).hasOutput || d }
        have hevents : (engine.errs.foldl (fun x e => emitFormatted x (Ev.fmtError e))
            { preCompileState fs engine args st1 with
              hasOutput := (preCompileState fs engine args st1).hasOutput || d }).events
            = st.events ++ (δ1 ++ (δ2 ++ engine.errs.map (fun e => Ev.fmtError e))) := by
          rw [hfold.1]
          have hpr : ({ preCompileState fs engine args st1 with
              hasOutput := (preCompileState fs engine args st1).hasOutput || d }).events
              = (preCompileState fs engine args st1).events := rfl
          rw [hpr, hev2, hev1]
          simp [List.append_assoc]
        have hgrow : δ1 ++ (δ2 ++ engine.errs.map (fun e => Ev.fmtError e)) ≠ [] →
            (engine.errs.foldl (fun x e => emitFormatted x (Ev.fmtError e))
              { preCompileState fs engine args st1 with
                hasOutput := (preCompileState fs engine args st1).hasOutput
                  || d }).events ≠ st.events := by
          intro hne
          rw [hevents]
          exact append_ne_of_ne_nil hne
        cases s
        all_goals
          replace h : (engine.errs.foldl (fun x e => emitFormatted x (Ev.fmtError e))
            { preCompileState fs engine args st1 with
              hasOutput := (preCompileState fs engine args st1).hasOutput
                || d }).hasOutput = true := h
          rw [hfold.2.1] at h
          replace h : (((preCompileState fs engine args st1).hasOutput || d)
              || !engine.errs.isEmpty) = true := h
          rw [hho2, hho1] at h
          rcases Bool.or_eq_true_iff.mp h with h' | herrs
          · rcases Bool.or_eq_true_iff.mp h' with h'' | hd
            · rcases Bool.or_eq_true_iff.mp h'' with hst | hδ2
              · rcases Bool.or_eq_true_iff.mp hst with hst' | hδ1
                · exact Or.inl hst'
                · refine Or.inr (Or.inl ?_)
                  show (engine.errs.foldl (fun x e => emitFormatted x (Ev.fmtError e))
                    { preCompileState fs engine args st1 with
                      hasOutput := (preCompileState fs engine args st1).hasOutput
                        || d }).events ≠ st.events
                  refine hgrow ?_
                  have hne : δ1 ≠ [] := by simpa using hδ1
                  simp [hne]
              · refine Or.inr (Or.inl ?_)
                show (engine.errs.foldl (fun x e => emitFormatted x (Ev.fmtError e))
                  { preCompileState fs engine args st1 with
                    hasOutput := (preCompileState fs engine args st1).hasOutput
                      || d }).events ≠ st.events
                refine hgrow ?_
                have hne : δ2 ≠ [] := by simpa using hδ2
                simp [hne]
            · exact Or.inr (Or.inr ⟨_, by rw [hd]⟩)
          · refine Or.inr (Or.inl ?_)
            show (engine.errs.foldl (fun x e => emitFormatted x (Ev.fmtError e))
              { preCompileState fs engine args st1 with
                hasOutput := (preCompileState fs engine args st1).hasOutput
                  || d }).events ≠ st.events
            refine hgrow ?_
            have hne : engine.errs ≠ [] := by simpa using herrs
            simp [hne]

/-- Witness for C1 at a flag-setting write. -/
theorem C1_witness :
    (emit {} (Ev.errText "diagnostic")).hasOutput = true :=
  C1_output_tracker_amended.2.1 {} (Ev.errText "diagnostic") rfl

/-- Witness for C7 with only the legacy format requested over one unit. -/
theorem C7_witness :
    (emittedBy { sourceCodes := [("a.sol", "x")] }
        (outputCompilationResults idPP (engW true [] (Except.ok (true, true)))
          { astJson := true } { sourceCodes := [("a.sol", "x")] })).filter isAstBannerEv
      = ({ sourceCodes := [("a.sol", "x")] } : St).sourceCodes.map
          (fun src => Ev.astBanner src.1) :=
  (C7_ast_output_amended idPP (engW true [] (Except.ok (true, true))) { astJson := true }
    { sourceCodes := [("a.sol", "x")] }).1 ⟨rfl, rfl⟩

end TonSolc
